import Mathlib

/-!
Verification of the routing / data-fetch core of the Flaix financial
assistant (src/app.py) against its specification.

The embedding models Python values flowing through the program as a
JSON-like inductive type `Json` (the only values the routed code moves
around are parsed-JSON values and strings).  Python dictionaries are
modelled as association lists with Python dict semantics: insertion
keeps the position of the first occurrence of a key and updates its
value; lookup finds the (unique) entry for a key.

External collaborators (the LLM service, the HTTP data provider) are
modelled as oracle parameters: the classification LLM supplies the raw
decision text, the gateway supplies the JSON value that the HTTP GET in
call_indian_api would have produced (that function converts every
transport failure into a normal value of shape, so an oracle
returning an arbitrary Json value covers all its behaviours).
-/

/-- Model of a Python value as it appears in this program: the results of
json.loads, the parameter values passed around, and API responses.
Numbers keep their source lexeme (the program never computes with them). -/
inductive Json where
  | null
  | bool (b : Bool)
  | num (lexeme : String)
  | str (s : String)
  | arr (items : List Json)
  | obj (fields : List (String × Json))

/-- Lookup in an association list modelling a Python dict (keys unique). -/
def dlookup {α : Type} : List (String × α) → String → Option α
  | [], _ => none
  | (k, v) :: t, q => if k = q then some v else dlookup t q

/-- Python dict assignment d[k] = v: update in place if the key is
present, else append at the end. -/
def dinsert {α : Type} : List (String × α) → String → α → List (String × α)
  | [], k, v => [(k, v)]
  | (k1, v1) :: t, k, v => if k1 = k then (k, v) :: t else (k1, v1) :: dinsert t k v

/-- Python dict.get(k, d). -/
def jget (fields : List (String × Json)) (k : String) (d : Json) : Json :=
  (dlookup fields k).getD d

/-- Python truthiness of a value of type Json.  A number is truthy
exactly when it denotes a nonzero value, which for a decimal lexeme is
equivalent to containing a nonzero digit. -/
def truthy : Json → Bool
  | Json.null => false
  | Json.bool b => b
  | Json.num lexeme => lexeme.any (fun c => c.isDigit && c != '0')
  | Json.str s => !s.isEmpty
  | Json.arr items => !items.isEmpty
  | Json.obj fields => !fields.isEmpty

/-! ## Operation Registry (API_ENDPOINTS, src/app.py lines 27-78) -/

/-- One entry of the API_ENDPOINTS dictionary. -/
structure ApiInfo where
  endpoint : String
  required_params : List String
  optional_params : List String := []
  param_mapping : List (String × String)
  default_values : List (String × Json) := []
  description : String

/-- The API_ENDPOINTS dictionary of src/app.py, as a lookup function
(the program only ever looks entries up by name). -/
def API_ENDPOINTS (name : String) : Option ApiInfo :=
  if name = "get_stock_details" then
    some { endpoint := "/stock", required_params := ["stock_name"],
           param_mapping := [("stock_name", "name")],
           description := "Get details for a specific stock" }
  else if name = "get_trending_stocks" then
    some { endpoint := "/trending", required_params := [], param_mapping := [],
           description := "Get trending stocks in the market" }
  else if name = "get_market_news" then
    some { endpoint := "/news", required_params := [], param_mapping := [],
           description := "Get latest stock market news" }
  else if name = "get_mutual_funds" then
    some { endpoint := "/mutual_funds", required_params := [], param_mapping := [],
           description := "Get mutual funds data" }
  else if name = "get_ipo_data" then
    some { endpoint := "/ipo", required_params := [], param_mapping := [],
           description := "Get IPO data" }
  else if name = "get_bse_most_active" then
    some { endpoint := "/BSE_most_active", required_params := [], param_mapping := [],
           description := "Get BSE most active stocks" }
  else if name = "get_nse_most_active" then
    some { endpoint := "/NSE_most_active", required_params := [], param_mapping := [],
           description := "Get NSE most active stocks" }
  else if name = "get_historical_data" then
    some { endpoint := "/historical_data", required_params := ["stock_name"],
           optional_params := ["period"],
           default_values := [("period", Json.str "1m"), ("filter", Json.str "default")],
           param_mapping := [],
           description := "Get historical data for a stock" }
  else none

/-- Result of the pure resolution part of call_api_by_name: either an
error dictionary is returned, or the function proceeds to the network
call with an endpoint and a final parameter mapping.  The request
constructor marks the exact point where call_indian_api would be
invoked. -/
inductive ApiResult where
  | error (msg : String)
  | request (endpoint : String) (params : List (String × Json))

/-- The provider-facing name of a caller parameter:
api_info.get(param_mapping, {}).get(param, param). -/
def map_param_name (pm : List (String × String)) (k : String) : String :=
  (dlookup pm k).getD k

/-- The mapped_params loop of call_api_by_name (src/app.py lines 124-128):
start from an empty dict and assign each kwarg under its mapped name. -/
def build_mapped (pm : List (String × String)) (kwargs : List (String × Json)) :
    List (String × Json) :=
  kwargs.foldl (fun acc kv => dinsert acc (map_param_name pm kv.1) kv.2) []

/-- The default-values loop of call_api_by_name (src/app.py lines 130-133):
each default is assigned only if its key is not yet present. -/
def apply_defaults (dv : List (String × Json)) (mp : List (String × Json)) :
    List (String × Json) :=
  dv.foldl (fun acc kv => if (dlookup acc kv.1).isSome then acc else dinsert acc kv.1 kv.2) mp

/-- call_api_by_name (src/app.py lines 102-135) up to the network
boundary: registry lookup, required-parameter check (the loop returns on
the first missing one), parameter renaming, defaults. -/
def call_api_by_name (api_name : String) (kwargs : List (String × Json)) : ApiResult :=
  match API_ENDPOINTS api_name with
  | none => ApiResult.error ("Unknown API: " ++ api_name)
  | some api_info =>
    match api_info.required_params.find? (fun p => (dlookup kwargs p).isNone) with
    | some p => ApiResult.error ("Missing required parameter: " ++ p)
    | none =>
      ApiResult.request api_info.endpoint
        (apply_defaults api_info.default_values (build_mapped api_info.param_mapping kwargs))

/-! ## JSON parsing: a model of json.loads

The program hands the extracted payload to the Python standard json
module.  That library is an external collaborator; it is modelled here
by a standard fuel-indexed JSON parser.  Duplicate object keys keep the
last value, as a Python dict built by the library does. -/

/-- JSON whitespace characters (the four accepted by json.loads). -/
def jsonWs (c : Char) : Bool :=
  c = ' ' || c = '\t' || c = '\n' || c = '\r'

/-- Drop leading JSON whitespace. -/
def skipWs : List Char → List Char
  | [] => []
  | c :: cs => if jsonWs c then skipWs cs else c :: cs

/-- Match a literal character sequence at the head of the input. -/
def stripLit : List Char → List Char → Option (List Char)
  | [], cs => some cs
  | _ :: _, [] => none
  | l :: ls, c :: cs => if c = l then stripLit ls cs else none

/-- Value of one hexadecimal digit. -/
def hexVal (c : Char) : Option Nat :=
  if c.isDigit then some (c.toNat - 48)
  else if 'a' ≤ c && c ≤ 'f' then some (c.toNat - 87)
  else if 'A' ≤ c && c ≤ 'F' then some (c.toNat - 55)
  else none

/-- Body of a JSON string after the opening quote: characters up to the
closing quote, with the standard escapes; raw control characters are
rejected as json.loads does in strict mode. -/
def parseStringBody : List Char → List Char → Option (String × List Char)
  | [], _ => none
  | c :: cs, acc =>
    if c = '"' then some (String.mk acc.reverse, cs)
    else if c = '\\' then
      match cs with
      | [] => none
      | e :: cs2 =>
        if e = '"' then parseStringBody cs2 ('"' :: acc)
        else if e = '\\' then parseStringBody cs2 ('\\' :: acc)
        else if e = '/' then parseStringBody cs2 ('/' :: acc)
        else if e = 'b' then parseStringBody cs2 ('\x08' :: acc)
        else if e = 'f' then parseStringBody cs2 ('\x0c' :: acc)
        else if e = 'n' then parseStringBody cs2 ('\n' :: acc)
        else if e = 'r' then parseStringBody cs2 ('\r' :: acc)
        else if e = 't' then parseStringBody cs2 ('\t' :: acc)
        else if e = 'u' then
          match cs2 with
          | h1 :: h2 :: h3 :: h4 :: cs3 =>
            match hexVal h1, hexVal h2, hexVal h3, hexVal h4 with
            | some a, some b, some c1, some d =>
              parseStringBody cs3 (Char.ofNat (((a * 16 + b) * 16 + c1) * 16 + d) :: acc)
            | _, _, _, _ => none
          | _ => none
        else none
    else if c.toNat < 32 then none
    else parseStringBody cs (c :: acc)

/-- Characters that may occur in a JSON number token. -/
def numChar (c : Char) : Bool :=
  c.isDigit || c = '-' || c = '+' || c = '.' || c = 'e' || c = 'E'

/-- Lex a JSON number, keeping its lexeme.  A token qualifies when it
starts with a minus sign or digit and contains a digit. -/
def parseNumber (cs : List Char) : Option (Json × List Char) :=
  let lex := cs.takeWhile numChar
  let rest := cs.drop lex.length
  if lex.any Char.isDigit &&
      (lex.head? = some '-' || (lex.head?.map Char.isDigit).getD false) then
    some (Json.num (String.mk lex), rest)
  else none

mutual

/-- Parse one JSON value; the fuel bounds recursion depth. -/
def parseValue : Nat → List Char → Option (Json × List Char)
  | 0, _ => none
  | fuel + 1, cs =>
    match skipWs cs with
    | [] => none
    | c :: rest =>
      if c = 'n' then (stripLit ['u', 'l', 'l'] rest).map (fun r => (Json.null, r))
      else if c = 't' then (stripLit ['r', 'u', 'e'] rest).map (fun r => (Json.bool true, r))
      else if c = 'f' then (stripLit ['a', 'l', 's', 'e'] rest).map (fun r => (Json.bool false, r))
      else if c = '"' then (parseStringBody rest []).map (fun sv => (Json.str sv.1, sv.2))
      else if c = '\x7b' then
        match skipWs rest with
        | '\x7d' :: rest2 => some (Json.obj [], rest2)
        | _ => parseMembers fuel (skipWs rest) []
      else if c = '[' then
        match skipWs rest with
        | ']' :: rest2 => some (Json.arr [], rest2)
        | _ => parseItems fuel (skipWs rest) []
      else parseNumber (c :: rest)

/-- Parse the members of a JSON object after its opening brace (at least
one member present).  Members accumulate with dict-assignment semantics,
so a duplicate key keeps the last value. -/
def parseMembers : Nat → List Char → List (String × Json) → Option (Json × List Char)
  | 0, _, _ => none
  | fuel + 1, cs, acc =>
    match skipWs cs with
    | '"' :: rest =>
      match parseStringBody rest [] with
      | none => none
      | some (key, rest2) =>
        match skipWs rest2 with
        | ':' :: rest3 =>
          match parseValue fuel rest3 with
          | none => none
          | some (v, rest4) =>
            match skipWs rest4 with
            | ',' :: rest5 => parseMembers fuel rest5 (dinsert acc key v)
            | '\x7d' :: rest5 => some (Json.obj (dinsert acc key v), rest5)
            | _ => none
        | _ => none
    | _ => none

/-- Parse the items of a JSON array after its opening bracket (at least
one item present). -/
def parseItems : Nat → List Char → List Json → Option (Json × List Char)
  | 0, _, _ => none
  | fuel + 1, cs, acc =>
    match parseValue fuel cs with
    | none => none
    | some (v, rest) =>
      match skipWs rest with
      | ',' :: rest2 => parseItems fuel rest2 (acc ++ [v])
      | ']' :: rest2 => some (Json.arr (acc ++ [v]), rest2)
      | _ => none

end

/-- Model of json.loads: parse a complete JSON document; trailing
non-whitespace makes the document invalid.  Failure (none) corresponds
to the library raising an exception. -/
def loads (s : String) : Option Json :=
  match parseValue (2 * s.length + 2) s.data with
  | none => none
  | some (j, rest) => if (skipWs rest).isEmpty then some j else none

/-! ## JSON serialization: a model of json.dumps(x, indent=2) -/

/-- Indentation produced by json.dumps with indent=2 at a nesting level. -/
def indentStr (lvl : Nat) : String :=
  String.mk (List.replicate (2 * lvl) ' ')

/-- Escape one character inside a serialized JSON string. -/
def escChar (c : Char) : String :=
  if c = '"' then "\\\""
  else if c = '\\' then "\\\\"
  else if c = '\n' then "\\n"
  else if c = '\t' then "\\t"
  else if c = '\r' then "\\r"
  else if c = '\x08' then "\\b"
  else if c = '\x0c' then "\\f"
  else if c.toNat < 32 then
    "\\u00" ++ String.singleton ("0123456789abcdef".toList.getD (c.toNat / 16) '0') ++
      String.singleton ("0123456789abcdef".toList.getD (c.toNat % 16) '0')
  else String.singleton c

/-- Serialize a JSON string with quotes and escapes. -/
def dumpStr (s : String) : String :=
  "\"" ++ String.join (s.data.map escChar) ++ "\""

mutual

/-- Size of a JSON value, used as a recursion bound for the serializer. -/
def jsize : Json → Nat
  | Json.null => 1
  | Json.bool _ => 1
  | Json.num _ => 1
  | Json.str _ => 1
  | Json.arr items => 1 + jsizeItems items
  | Json.obj fields => 1 + jsizeFields fields

/-- Size of a list of JSON values. -/
def jsizeItems : List Json → Nat
  | [] => 1
  | j :: js => 1 + jsize j + jsizeItems js

/-- Size of a list of JSON object fields. -/
def jsizeFields : List (String × Json) → Nat
  | [] => 1
  | f :: fs => 1 + jsize f.2 + jsizeFields fs

end

/-- Fuel-indexed serializer body; the fuel bounds nesting depth and is
instantiated with a size bound in dumps below. -/
def dumpsF : Nat → Json → Nat → String
  | 0, _, _ => ""
  | _ + 1, Json.null, _ => "null"
  | _ + 1, Json.bool true, _ => "true"
  | _ + 1, Json.bool false, _ => "false"
  | _ + 1, Json.num lexeme, _ => lexeme
  | _ + 1, Json.str s, _ => dumpStr s
  | _ + 1, Json.arr [], _ => "[]"
  | fuel + 1, Json.arr (x :: xs), lvl =>
    "[\n" ++
      String.intercalate ",\n"
        ((x :: xs).map (fun y => indentStr (lvl + 1) ++ dumpsF fuel y (lvl + 1))) ++
      "\n" ++ indentStr lvl ++ "]"
  | _ + 1, Json.obj [], _ => "\x7b\x7d"
  | fuel + 1, Json.obj (f :: fs), lvl =>
    "\x7b\n" ++
      String.intercalate ",\n"
        ((f :: fs).map
          (fun y => indentStr (lvl + 1) ++ dumpStr y.1 ++ ": " ++ dumpsF fuel y.2 (lvl + 1))) ++
      "\n" ++ indentStr lvl ++ "\x7d"

/-- Model of json.dumps(x, indent=2): pretty-print with two-space
indentation, newline-separated items, and key separator of colon-space,
as the Python library does when an indent is given. -/
def dumps (j : Json) (lvl : Nat) : String :=
  dumpsF (jsize j) j lvl

/-! ## Orchestrator response parsing (src/app.py lines 210-225) -/

/-- Splitting scan behind pySplit: at each position, a separator match
emits the accumulated segment and skips the separator, otherwise the
character joins the accumulator.  The fuel bounds the number of steps
(each step consumes at least one character). -/
def splitScan (sep : List Char) : Nat → List Char → List Char → List (List Char)
  | _, [], acc => [acc.reverse]
  | 0, s, acc => [acc.reverse ++ s]
  | fuel + 1, c :: cs, acc =>
    if sep.isPrefixOf (c :: cs) then
      acc.reverse :: splitScan sep fuel (List.drop sep.length (c :: cs)) []
    else
      splitScan sep fuel cs (c :: acc)

/-- Python str.split(sep) for a nonempty separator: the segments between
non-overlapping leftmost occurrences of sep. -/
def pySplit (s sep : String) : List String :=
  (splitScan sep.data (s.data.length + 1) s.data []).map String.mk

/-- Python membership test sub in s: splitting on a nonempty sub yields
more than one segment exactly when sub occurs in s. -/
def occurs (sub s : String) : Bool := (pySplit s sub).length != 1

/-- Python str.strip(): remove leading and trailing whitespace. -/
def pyStrip (s : String) : String :=
  String.mk (((s.data.dropWhile Char.isWhitespace).reverse.dropWhile Char.isWhitespace).reverse)

/-- The three-tier JSON payload extraction of the orchestrator
(src/app.py lines 213-219): the contents of a fenced block labeled
json, else the contents of the first fenced block, else the whole text;
stripped in every case. -/
def extract_json (decision_text : String) : String :=
  if occurs "```json" decision_text then
    pyStrip ((pySplit ((pySplit decision_text "```json").getD 1 "") "```").getD 0 "")
  else if occurs "```" decision_text then
    pyStrip ((pySplit decision_text "```").getD 1 "")
  else
    pyStrip decision_text

/-- The response-parsing stage of orchestrator (src/app.py lines
210-225).  The classification LLM call is an external oracle; its raw
text output is the argument.  A parse failure is caught and degraded to
a needs_api false object; a successful parse is returned as-is. -/
def orchestrator (decision_text : String) : Json :=
  match loads (extract_json decision_text) with
  | some decision => decision
  | none => Json.obj [("needs_api", Json.bool false)]

/-! ## Conversation state and the chat turn handler (src/app.py lines 230-363) -/

/-- One entry of st.session_state.messages: a role ("user" or "model")
and a content string. -/
structure Msg where
  role : String
  content : String
deriving DecidableEq

/-- The fixed persona instructions (src/app.py lines 230-239). -/
def SYSTEM_PROMPT : String :=
  "You are Flaix, a helpful and knowledgeable financial assistant designed specifically for Indian users. Your purpose is to improve financial literacy and provide guidance on investments in the Indian market.\n\nKey responsibilities:\n1. Explain financial concepts in simple, easy-to-understand language\n2. Provide information about different investment options available in India (stocks, mutual funds, bonds, PPF, FDs, etc.)\n3. Help users understand investment risks and returns\n4. Explain tax implications of different investments in the Indian context\n5. Guide users on how to start investing based on their goals and risk tolerance\n6. Answer questions about market trends and financial news in India\n"

/-- The canned acknowledgment stored as the second bootstrap message
(src/app.py line 245). -/
def BOOTSTRAP_ACK : String :=
  "Hello! I am Flaix, your financial assistant. You can ask me about investments, financial planning, or any other financial topic."

/-- Initial session history: the persona prompt recorded under the user
role and its acknowledgment under the model role (src/app.py lines
242-246). -/
def bootstrap_messages : List Msg :=
  [{ role := "user", content := SYSTEM_PROMPT },
   { role := "model", content := BOOTSTRAP_ACK }]

/-- The generic apology recorded when the turn body raises
(src/app.py line 359). -/
def APOLOGY : String :=
  "I\x27m sorry, I encountered an error. Please try again later."

/-- The fixed role acknowledgment inserted as the second content of the
generation request (src/app.py line 321). -/
def ROLE_ACK : String :=
  "I understand my role as Flaix, a financial assistant for Indian users. I\x27ll provide helpful information about investing and financial planning in simple language."

/-- The data-context annotation built around a serialized API result
(src/app.py line 289). -/
def mk_api_context (api_result : Json) : String :=
  "\nHere is the real-time market data from the Indian Stock Market API:\n" ++
    dumps api_result 0 ++
    "\n\nPlease use this data to provide an informative response to the user\x27s query."

/-- call_api_by_name including the network call: resolution errors come
back as error dictionaries, otherwise the gateway oracle supplies the
JSON that the HTTP GET of call_indian_api produced (that function turns
every transport failure into a normal error-shaped value, so the oracle
covers all its behaviours). -/
def call_api_by_name_run (gateway : String → List (String × Json) → Json)
    (api_name : String) (kwargs : List (String × Json)) : Json :=
  match call_api_by_name api_name kwargs with
  | ApiResult.error msg => Json.obj [("error", Json.str msg)]
  | ApiResult.request endpoint params => gateway endpoint params

/-- The api_context construction of the chat turn handler (src/app.py
lines 280-289).  Returns error () where the Python code would raise out
of the enclosing try block: reading .get off a non-dict decision, or
unpacking non-mapping params once a registered function was selected.
A needs_api false decision, a non-string function name, and an
unregistered function name all leave the context empty. -/
def compute_api_context (gateway : String → List (String × Json) → Json)
    (decision : Json) : Except Unit String :=
  match decision with
  | Json.obj fields =>
    if truthy (jget fields "needs_api" (Json.bool false)) then
      match jget fields "function" (Json.str "") with
      | Json.str function_name =>
        if (API_ENDPOINTS function_name).isSome then
          match jget fields "params" (Json.obj []) with
          | Json.obj params =>
            Except.ok (mk_api_context (call_api_by_name_run gateway function_name params))
          | _ => Except.error ()
        else Except.ok ""
      | _ => Except.ok ""
    else Except.ok ""
  | _ => Except.error ()

/-- The user_query composition (src/app.py lines 292-295): the raw
prompt, with the data context appended inside a SYSTEM NOTE marker when
the context is nonempty. -/
def user_query_of (prompt api_context : String) : String :=
  if api_context.isEmpty then prompt
  else prompt ++ "\n\n[SYSTEM NOTE: " ++ api_context ++ "]"

/-- One iteration of the history-rendering loop (src/app.py lines
303-306): a user message other than the persona renders as a User line,
a model message as an Assistant line, anything else contributes
nothing. -/
def conv_step (m : Msg) : String :=
  if m.role = "user" && m.content != SYSTEM_PROMPT then "User: " ++ m.content ++ "\n"
  else if m.role = "model" then "Assistant: " ++ m.content ++ "\n"
  else ""

/-- The conversation_history accumulation (src/app.py lines 301-306):
messages at indices range(1, min(5, len - 1)) of the session history,
each rendered by conv_step. -/
def conversation_history (messages : List Msg) : String :=
  (List.range' 1 (min 5 (messages.length - 1) - 1)).foldl
    (fun acc i => acc ++ conv_step (messages.getD i { role := "", content := "" })) ""

/-- The system message composition (src/app.py lines 298-308): the
persona, extended with the rendered previous conversation once the
history holds more than two messages. -/
def system_message_of (messages : List Msg) : String :=
  if messages.length > 2 then
    SYSTEM_PROMPT ++ "\n\nPrevious conversation:\n" ++ conversation_history messages
  else SYSTEM_PROMPT

/-- The contents list of the streaming generation request (src/app.py
lines 311-330): system message, fixed role acknowledgment, and the
user query with any data context. -/
def generation_contents (messages : List Msg) (user_query : String) : List Msg :=
  [{ role := "user", content := system_message_of messages },
   { role := "model", content := ROLE_ACK },
   { role := "user", content := user_query }]

/-- The body of the try block of the chat turn handler (src/app.py
lines 275-355), producing the accumulated full_response.  External
effects are oracles: decision_text is the classification response text
(error () when that request itself raises, which happens outside the
try of the orchestrator and so propagates here), gateway supplies data
API results, and stream is the generation stream (error () when the
request or the iteration raises; on success the turn accumulates the
concatenation of the chunk texts). -/
def try_body (decision_text : Except Unit String)
    (gateway : String → List (String × Json) → Json)
    (stream : Except Unit (List String)) : Except Unit String :=
  match decision_text with
  | Except.error _ => Except.error ()
  | Except.ok t =>
    match compute_api_context gateway (orchestrator t) with
    | Except.error _ => Except.error ()
    | Except.ok _api_context =>
      match stream with
      | Except.error _ => Except.error ()
      | Except.ok chunks => Except.ok (String.join chunks)

/-- One full chat turn (src/app.py lines 262-363): append the user
message, run the try block, on failure replace the output with the
apology, and append the result as the model message. -/
def chat_turn (decision_text : Except Unit String)
    (gateway : String → List (String × Json) → Json)
    (stream : Except Unit (List String))
    (messages : List Msg) (prompt : String) : List Msg :=
  let messages1 := messages ++ [{ role := "user", content := prompt }]
  let full_response :=
    match try_body decision_text gateway stream with
    | Except.ok r => r
    | Except.error _ => APOLOGY
  messages1 ++ [{ role := "model", content := full_response }]

/-- Substring containment: sub occurs somewhere inside s. -/
def str_contains (s sub : String) : Prop :=
  ∃ a b : String, s = a ++ sub ++ b

/-- Concatenation of a list of strings. -/
def str_concat : List String → String
  | [] => ""
  | s :: rest => s ++ str_concat rest

/-- The well-formed Routing Decision shape required by the spec, stated
over the code-level key names (needs_api, function, params for the
spec-level needs_data, operation_name, parameters): an object carrying
a boolean needs_api, and when that is true also a string function name
and a params mapping. -/
def is_routing_decision : Json → Bool
  | Json.obj fields =>
    (match dlookup fields "needs_api" with
     | some (Json.bool b) =>
       if b then
         (match dlookup fields "function" with
          | some (Json.str _) => true
          | _ => false) &&
         (match dlookup fields "params" with
          | some (Json.obj _) => true
          | _ => false)
       else true
     | _ => false)
  | _ => false

/-- The value of the last caller parameter whose mapped name equals q:
the parameter whose assignment survives the build_mapped loop, since a
later assignment to the same mapped key overwrites an earlier one. -/
def last_match (f : String → String) : List (String × Json) → String → Option Json
  | [], _ => none
  | kv :: rest, q =>
    match last_match f rest q with
    | some v => some v
    | none => if f kv.1 = q then some kv.2 else none

/-! ## Helper lemmas -/

theorem splitScan_ne_nil (sep : List Char) (fuel : Nat) (s acc : List Char) :
    splitScan sep fuel s acc ≠ [] := by
  induction fuel generalizing s acc with
  | zero => cases s <;> simp [splitScan]
  | succ n ih =>
    cases s with
    | nil => simp [splitScan]
    | cons c cs =>
      simp only [splitScan]
      split
      · simp
      · exact ih cs (c :: acc)

theorem splitScan_length_one (sep : List Char) (hsep : sep ≠ []) :
    ∀ fuel s acc, s.length ≤ fuel →
      ((splitScan sep fuel s acc).length = 1 ↔ ¬ ∃ a b, s = a ++ sep ++ b) := by
  have hnil : ¬ ∃ a b : List Char, [] = a ++ sep ++ b := by
    rintro ⟨a, b, e⟩
    rcases List.append_eq_nil.mp e.symm with ⟨e1, _⟩
    exact hsep (List.append_eq_nil.mp e1).2
  intro fuel
  induction fuel with
  | zero =>
    intro s acc h
    have hs : s = [] := List.length_eq_zero.mp (Nat.le_zero.mp h)
    subst hs
    simpa [splitScan] using hnil
  | succ n ih =>
    intro s acc h
    cases s with
    | nil => simpa [splitScan] using hnil
    | cons c cs =>
      simp only [splitScan]
      by_cases hp : sep.isPrefixOf (c :: cs)
      · rw [if_pos hp]
        simp only [List.length_cons]
        constructor
        · intro hl
          exfalso
          have hne := splitScan_ne_nil sep n (List.drop sep.length (c :: cs)) []
          have hz : (splitScan sep n (List.drop sep.length (c :: cs)) []).length = 0 := by omega
          exact hne (List.length_eq_zero.mp hz)
        · intro hno
          exfalso
          apply hno
          obtain ⟨t, ht⟩ := List.isPrefixOf_iff_prefix.mp hp
          exact ⟨[], t, by simpa using ht.symm⟩
      · rw [if_neg hp]
        have hle : cs.length ≤ n := by
          simpa using Nat.le_of_succ_le_succ (by simpa using h)
        rw [ih cs (c :: acc) hle]
        have hiff : (∃ a b, c :: cs = a ++ sep ++ b) ↔ (∃ a b, cs = a ++ sep ++ b) := by
          constructor
          · rintro ⟨a, b, e⟩
            cases a with
            | nil =>
              exfalso
              apply hp
              exact List.isPrefixOf_iff_prefix.mpr ⟨b, by simpa using e.symm⟩
            | cons a0 as =>
              refine ⟨as, b, ?_⟩
              have e2 : c :: cs = a0 :: (as ++ sep ++ b) := by simpa using e
              exact (List.cons.injEq _ _ _ _ ▸ e2).2
          · rintro ⟨a, b, e⟩
            exact ⟨c :: a, b, by simp [e]⟩
        exact (not_congr hiff).symm

theorem string_data_eq {s t : String} (h : s.data = t.data) : s = t := by
  cases s
  cases t
  simp at h
  rw [h]

theorem occurs_iff (sub s : String) (h : sub ≠ "") :
    occurs sub s = true ↔ str_contains s sub := by
  have hd : sub.data ≠ [] := by
    intro hd
    exact h (string_data_eq (by simpa using hd))
  have hiff := splitScan_length_one sub.data hd (s.length + 1) s.data []
    (Nat.le_succ _)
  have hocc : occurs sub s = true ↔
      (splitScan sub.data (s.length + 1) s.data []).length ≠ 1 := by
    unfold occurs pySplit
    rw [List.length_map]
    exact bne_iff_ne
  rw [hocc]
  constructor
  · intro hne
    have hex : ∃ a b, s.data = a ++ sub.data ++ b := by
      by_contra hno
      exact hne (hiff.mpr hno)
    obtain ⟨a, b, e⟩ := hex
    exact ⟨String.mk a, String.mk b,
      string_data_eq (by simpa [String.data_append] using e)⟩
  · rintro ⟨a, b, e⟩
    intro h1
    exact (hiff.mp h1) ⟨a.data, b.data, by simp [e, String.data_append]⟩

theorem str_contains_of_json_fence {s : String} (h : str_contains s "```json") :
    str_contains s "```" := by
  obtain ⟨a, b, e⟩ := h
  refine ⟨a, "json" ++ b, ?_⟩
  rw [e]
  simp only [String.append_assoc]
  rfl

/-! ## Claims -/

/-- C5: for every registered operation, resolve with exactly the
required parameters supplied and no optional ones returns a request
with the operation's endpoint and the required parameters (renamed to
provider-facing keys) plus the operation's defaults; in particular
get_historical_data with stock_name TCS yields /historical_data with
stock_name TCS, period 1m, filter default. -/
theorem resolve_required_only (v : Json) :
    call_api_by_name "get_stock_details" [("stock_name", v)] =
      ApiResult.request "/stock" [("name", v)] ∧
    call_api_by_name "get_trending_stocks" [] = ApiResult.request "/trending" [] ∧
    call_api_by_name "get_market_news" [] = ApiResult.request "/news" [] ∧
    call_api_by_name "get_mutual_funds" [] = ApiResult.request "/mutual_funds" [] ∧
    call_api_by_name "get_ipo_data" [] = ApiResult.request "/ipo" [] ∧
    call_api_by_name "get_bse_most_active" [] = ApiResult.request "/BSE_most_active" [] ∧
    call_api_by_name "get_nse_most_active" [] = ApiResult.request "/NSE_most_active" [] ∧
    call_api_by_name "get_historical_data" [("stock_name", v)] =
      ApiResult.request "/historical_data"
        [("stock_name", v), ("period", Json.str "1m"), ("filter", Json.str "default")] ∧
    call_api_by_name "get_historical_data" [("stock_name", Json.str "TCS")] =
      ApiResult.request "/historical_data"
        [("stock_name", Json.str "TCS"), ("period", Json.str "1m"),
         ("filter", Json.str "default")] :=
  ⟨rfl, rfl, rfl, rfl, rfl, rfl, rfl, rfl, rfl⟩

/-- C8: resolve with an operation name absent from the registry fails
with the UnknownOperation error for every caller-parameter mapping. -/
theorem resolve_unknown_operation (name : String) (kwargs : List (String × Json))
    (h : API_ENDPOINTS name = none) :
    call_api_by_name name kwargs = ApiResult.error ("Unknown API: " ++ name) := by
  unfold call_api_by_name
  rw [h]

theorem resolve_unknown_operation_witness :
    API_ENDPOINTS "get_crypto_data" = none ∧
    call_api_by_name "get_crypto_data" [] =
      ApiResult.error ("Unknown API: " ++ "get_crypto_data") :=
  ⟨rfl, resolve_unknown_operation "get_crypto_data" [] rfl⟩

/-- C7: resolve on a registered operation with a required parameter
absent from the caller parameters fails with the MissingParameter error
naming that parameter, and never reaches the network-request stage. -/
theorem resolve_missing_param (name : String) (info : ApiInfo)
    (kwargs : List (String × Json)) (p : String)
    (h : API_ENDPOINTS name = some info)
    (hp : p ∈ info.required_params)
    (hmiss : dlookup kwargs p = none) :
    call_api_by_name name kwargs =
      ApiResult.error ("Missing required parameter: " ++ p) ∧
    ∀ e ps, call_api_by_name name kwargs ≠ ApiResult.request e ps := by
  have key : call_api_by_name name kwargs =
      ApiResult.error ("Missing required parameter: " ++ p) := by
    unfold API_ENDPOINTS at h
    split_ifs at h with h1 h2 h3 h4 h5 h6 h7 h8 <;>
      first
      | exact Option.noConfusion h
      | (rw [Option.some.injEq] at h
         subst h
         fin_cases hp
         all_goals
           (subst_vars
            have hn : (dlookup kwargs "stock_name").isNone = true := by
              simp [hmiss]
            simp [call_api_by_name, API_ENDPOINTS, List.find?, hn]))
  refine ⟨key, ?_⟩
  intro e ps hc
  rw [key] at hc
  exact ApiResult.noConfusion hc

theorem resolve_missing_param_witness :
    call_api_by_name "get_historical_data" [("period", Json.str "1m")] =
      ApiResult.error ("Missing required parameter: " ++ "stock_name") :=
  (resolve_missing_param "get_historical_data"
    { endpoint := "/historical_data", required_params := ["stock_name"],
      optional_params := ["period"],
      default_values := [("period", Json.str "1m"), ("filter", Json.str "default")],
      param_mapping := [],
      description := "Get historical data for a stock" }
    [("period", Json.str "1m")] "stock_name" rfl (by simp) rfl).1

/-- C10: a valid invocation of resolve on get_stock_details, whose
rename map sends stock_name to name, with both stock_name and name
supplied translates two distinct caller keys to the same provider key
without failing: the key iterated later silently overwrites the value
of the earlier one. -/
theorem resolve_rename_collision_last_wins :
    call_api_by_name "get_stock_details"
        [("stock_name", Json.str "TCS"), ("name", Json.str "INFY")] =
      ApiResult.request "/stock" [("name", Json.str "INFY")] ∧
    call_api_by_name "get_stock_details"
        [("name", Json.str "INFY"), ("stock_name", Json.str "TCS")] =
      ApiResult.request "/stock" [("name", Json.str "TCS")] :=
  ⟨rfl, rfl⟩

/-- C3: a chat turn appends exactly one user message and then exactly
one model message to the session history, and when the turn body fails
the recorded model message is the single apology text, so the history
never ends with an unanswered user message. -/
theorem chat_turn_appends_pair (decision_text : Except Unit String)
    (gateway : String → List (String × Json) → Json)
    (stream : Except Unit (List String)) (messages : List Msg) (prompt : String) :
    (∃ r, chat_turn decision_text gateway stream messages prompt =
        messages ++ [{ role := "user", content := prompt }, { role := "model", content := r }]) ∧
    (try_body decision_text gateway stream = Except.error () →
      chat_turn decision_text gateway stream messages prompt =
        messages ++ [{ role := "user", content := prompt },
                     { role := "model", content := APOLOGY }]) := by
  constructor
  · cases h : try_body decision_text gateway stream with
    | ok r => exact ⟨r, by simp [chat_turn, h]⟩
    | error e => exact ⟨APOLOGY, by simp [chat_turn, h]⟩
  · intro h
    simp [chat_turn, h]

theorem chat_turn_appends_pair_witness :
    chat_turn (Except.error ()) (fun _ _ => Json.null) (Except.ok ["fine"])
        bootstrap_messages "hi" =
      bootstrap_messages ++ [{ role := "user", content := "hi" },
                             { role := "model", content := APOLOGY }] :=
  (chat_turn_appends_pair (Except.error ()) (fun _ _ => Json.null)
    (Except.ok ["fine"]) bootstrap_messages "hi").2 rfl

/-- C6: the JSON payload extraction follows the three-tier fallback
exactly: when the text contains a fenced block labeled json, the
contents of that block (the text between the label and the following
fence) are taken; otherwise, when it contains any fence, the contents
of the first fenced block are taken; otherwise the whole stripped text
is the payload.  Concrete instances exercise each tier. -/
theorem extract_json_three_tier (s : String) :
    (str_contains s "```json" →
      extract_json s =
        pyStrip ((pySplit ((pySplit s "```json").getD 1 "") "```").getD 0 "")) ∧
    (¬ str_contains s "```json" → str_contains s "```" →
      extract_json s = pyStrip ((pySplit s "```").getD 1 "")) ∧
    (¬ str_contains s "```" → extract_json s = pyStrip s) ∧
    extract_json "Reply:\n```json\n\x7b\"needs_api\": false\x7d\n```\nDone" =
      "\x7b\"needs_api\": false\x7d" ∧
    extract_json "```\n\x7b\"needs_api\": true\x7d\n```" = "\x7b\"needs_api\": true\x7d" ∧
    extract_json "  \x7b\"needs_api\": false\x7d\n" = "\x7b\"needs_api\": false\x7d" := by
  refine ⟨?_, ?_, ?_, rfl, rfl, rfl⟩
  · intro hc
    have ho : occurs "```json" s = true := (occurs_iff _ s (by decide)).mpr hc
    unfold extract_json
    rw [if_pos ho]
  · intro hn hc
    have ho1 : ¬ occurs "```json" s = true :=
      fun ht => hn ((occurs_iff _ s (by decide)).mp ht)
    have ho2 : occurs "```" s = true := (occurs_iff _ s (by decide)).mpr hc
    unfold extract_json
    rw [if_neg ho1, if_pos ho2]
  · intro hn
    have ho2 : ¬ occurs "```" s = true :=
      fun ht => hn ((occurs_iff _ s (by decide)).mp ht)
    have ho1 : ¬ occurs "```json" s = true :=
      fun ht => hn (str_contains_of_json_fence ((occurs_iff "```json" s (by decide)).mp ht))
    unfold extract_json
    rw [if_neg ho1, if_neg ho2]

theorem extract_json_three_tier_witness :
    extract_json "say\n```json\n\x7b\x7d\n```" =
      pyStrip ((pySplit ((pySplit "say\n```json\n\x7b\x7d\n```" "```json").getD 1 "")
        "```").getD 0 "") :=
  (extract_json_three_tier "say\n```json\n\x7b\x7d\n```").1 ⟨"say\n", "\n\x7b\x7d\n```", rfl⟩

/-- C1 counterexample: the raw classification text true is valid JSON,
so it parses; the orchestrator returns the parsed boolean as-is, which
is not a well-formed Routing Decision object and is not the degraded
needs_api false object the claim requires on a shape mismatch. -/
theorem orchestrator_shape_mismatch_passthrough :
    orchestrator "true" = Json.bool true ∧
    is_routing_decision (orchestrator "true") = false ∧
    orchestrator "true" ≠ Json.obj [("needs_api", Json.bool false)] := by
  refine ⟨rfl, rfl, ?_⟩
  intro h
  exact Json.noConfusion h

/-- C1 (amended): the orchestrator never propagates an error: it is a
total function of the raw classification text.  When the extracted
payload fails to parse as JSON it degrades to the needs_api false
object (in particular on the empty string and on plain prose); when the
payload parses (fenced-json, plain-fenced and raw JSON inputs included)
the parsed value is returned as-is, without any shape validation. -/
theorem orchestrator_fail_open :
    (∀ s, loads (extract_json s) = none →
      orchestrator s = Json.obj [("needs_api", Json.bool false)]) ∧
    (∀ s j, loads (extract_json s) = some j → orchestrator s = j) ∧
    orchestrator "" = Json.obj [("needs_api", Json.bool false)] ∧
    orchestrator "The user asks a general question; no market data needed." =
      Json.obj [("needs_api", Json.bool false)] ∧
    orchestrator "```json\n\x7b\"needs_api\": false\x7d\n```" =
      Json.obj [("needs_api", Json.bool false)] ∧
    orchestrator
        "```\n\x7b\"needs_api\": true, \"function\": \"get_ipo_data\", \"params\": \x7b\x7d\x7d\n```" =
      Json.obj [("needs_api", Json.bool true), ("function", Json.str "get_ipo_data"),
                ("params", Json.obj [])] ∧
    orchestrator
        "\x7b\"needs_api\": true, \"function\": \"get_nse_most_active\", \"params\": \x7b\x7d\x7d" =
      Json.obj [("needs_api", Json.bool true), ("function", Json.str "get_nse_most_active"),
                ("params", Json.obj [])] := by
  refine ⟨?_, ?_, rfl, rfl, rfl, rfl, rfl⟩
  · intro s h
    unfold orchestrator
    rw [h]
  · intro s j h
    unfold orchestrator
    rw [h]

theorem orchestrator_fail_open_witness :
    loads (extract_json "not json") = none ∧
    orchestrator "not json" = Json.obj [("needs_api", Json.bool false)] :=
  ⟨rfl, orchestrator_fail_open.1 "not json" rfl⟩

set_option maxRecDepth 4000 in
/-- C2 counterexample: with needs_api true and registered operation
get_trending_stocks, a Gateway fetch that returns the error result
still has its error JSON serialized into the data-context annotation,
and the composed prompt does contain a SYSTEM NOTE data-context
annotation, contrary to the claim that a Gateway error leaves the
prompt without one. -/
theorem api_context_on_gateway_error :
    compute_api_context (fun _ _ => Json.obj [("error", Json.str "boom")])
        (Json.obj [("needs_api", Json.bool true),
                   ("function", Json.str "get_trending_stocks"),
                   ("params", Json.obj [])]) =
      Except.ok (mk_api_context (Json.obj [("error", Json.str "boom")])) ∧
    mk_api_context (Json.obj [("error", Json.str "boom")]) ≠ "" ∧
    str_contains
      (user_query_of "show trending stocks"
        (mk_api_context (Json.obj [("error", Json.str "boom")])))
      "[SYSTEM NOTE: " ∧
    str_contains (mk_api_context (Json.obj [("error", Json.str "boom")]))
      (dumps (Json.obj [("error", Json.str "boom")]) 0) := by
  refine ⟨rfl, by decide, ?_, ?_⟩
  · exact (occurs_iff "[SYSTEM NOTE: " _ (by decide)).mp (by decide)
  · exact (occurs_iff (dumps (Json.obj [("error", Json.str "boom")]) 0) _ (by decide)).mp
      (by decide)

/-- C2 (amended): whenever the decision has a truthy needs_api and a
registered operation name and mapping-shaped params, the composed
prompt carries a data-context annotation containing the serialized form
of whatever call_api_by_name produced - the Gateway JSON on success,
but equally the serialized error object on a Gateway or
missing-parameter error; the turn proceeds in either case.  Only an
unregistered operation name (or a needs_api false decision) leaves the
prompt without a data-context annotation. -/
theorem api_context_always_serialized :
    (∀ (gateway : String → List (String × Json) → Json) fields prompt function_name params,
      truthy (jget fields "needs_api" (Json.bool false)) = true →
      jget fields "function" (Json.str "") = Json.str function_name →
      (API_ENDPOINTS function_name).isSome = true →
      jget fields "params" (Json.obj []) = Json.obj params →
      compute_api_context gateway (Json.obj fields) =
        Except.ok (mk_api_context (call_api_by_name_run gateway function_name params)) ∧
      str_contains (mk_api_context (call_api_by_name_run gateway function_name params))
        (dumps (call_api_by_name_run gateway function_name params) 0) ∧
      mk_api_context (call_api_by_name_run gateway function_name params) ≠ "" ∧
      str_contains
        (user_query_of prompt (mk_api_context (call_api_by_name_run gateway function_name params)))
        (mk_api_context (call_api_by_name_run gateway function_name params))) ∧
    (∀ (gateway : String → List (String × Json) → Json) fields prompt function_name,
      truthy (jget fields "needs_api" (Json.bool false)) = true →
      jget fields "function" (Json.str "") = Json.str function_name →
      API_ENDPOINTS function_name = none →
      compute_api_context gateway (Json.obj fields) = Except.ok "" ∧
      user_query_of prompt "" = prompt) := by
  constructor
  · intro gateway fields prompt function_name params h1 h2 h3 h4
    have hctx : compute_api_context gateway (Json.obj fields) =
        Except.ok (mk_api_context (call_api_by_name_run gateway function_name params)) := by
      simp [compute_api_context, h1, h2, h3, h4]
    have hne : mk_api_context (call_api_by_name_run gateway function_name params) ≠ "" := by
      intro he
      have hdata := congrArg String.data he
      simp [mk_api_context, String.data_append] at hdata
    refine ⟨hctx, ?_, hne, ?_⟩
    · exact ⟨"\nHere is the real-time market data from the Indian Stock Market API:\n",
        "\n\nPlease use this data to provide an informative response to the user\x27s query.",
        rfl⟩
    · have hemp : (mk_api_context (call_api_by_name_run gateway function_name params)).isEmpty
          = false := by
        cases hh : (mk_api_context (call_api_by_name_run gateway function_name params)).isEmpty
        · rfl
        · exact absurd ((String.isEmpty_iff _).mp hh) hne
      unfold user_query_of
      rw [hemp]
      simp only [Bool.false_eq_true, if_false]
      exact ⟨prompt ++ "\n\n[SYSTEM NOTE: ", "]", by simp [String.append_assoc]⟩
  · intro gateway fields prompt function_name h1 h2 h3
    constructor
    · simp [compute_api_context, h1, h2, h3]
    · rfl

theorem api_context_always_serialized_witness :
    compute_api_context (fun _ _ => Json.obj [("total", Json.num "5")])
        (Json.obj [("needs_api", Json.bool true),
                   ("function", Json.str "get_ipo_data"),
                   ("params", Json.obj [])]) =
      Except.ok (mk_api_context (call_api_by_name_run
        (fun _ _ => Json.obj [("total", Json.num "5")]) "get_ipo_data" [])) :=
  (api_context_always_serialized.1 (fun _ _ => Json.obj [("total", Json.num "5")])
    [("needs_api", Json.bool true), ("function", Json.str "get_ipo_data"),
     ("params", Json.obj [])]
    "any IPOs lately" "get_ipo_data" [] rfl rfl rfl rfl).1

theorem foldl_append_concat (f : Nat → String) (l : List Nat) :
    ∀ acc : String, l.foldl (fun a i => a ++ f i) acc = acc ++ str_concat (l.map f) := by
  induction l with
  | nil => intro acc; simp [str_concat]
  | cons x xs ih =>
    intro acc
    rw [List.foldl_cons, ih, List.map_cons, str_concat, ← String.append_assoc]

theorem range'_map_getD (l : List Msg) (d : Msg) (f : Msg → String) :
    ∀ (n s : Nat), s + n ≤ l.length →
      (List.range' s n).map (fun i => f (l.getD i d)) = ((l.drop s).take n).map f := by
  intro n
  induction n with
  | zero => intro s h; simp
  | succ m ih =>
    intro s h
    have hs : s < l.length := by omega
    rw [List.range'_succ s m 1, List.drop_eq_getElem_cons hs, List.take_succ_cons,
      List.map_cons, List.map_cons, List.getD_eq_getElem l d hs, ih (s + 1) (by omega)]

theorem conversation_history_eq (messages : List Msg) :
    1 ≤ messages.length →
    conversation_history messages =
      str_concat (((messages.drop 1).take (min 5 (messages.length - 1) - 1)).map conv_step) := by
  intro h
  unfold conversation_history
  rw [foldl_append_concat (fun i => conv_step (messages.getD i { role := "", content := "" })),
    range'_map_getD messages { role := "", content := "" } conv_step
      (min 5 (messages.length - 1) - 1) 1 (by omega),
    String.empty_append]

set_option maxRecDepth 20000 in
/-- C4 counterexample: immediately after the first prompt the rendered
previous conversation consists of the bootstrap acknowledgment as an
Assistant line, so the persona-bootstrap pair is not excluded from the
context; and with three completed exchanges in history the context
omits the most recent assistant answer, so the context is not the last
four exchanges either. -/
theorem conversation_context_bootstrap_leak :
    conversation_history (bootstrap_messages ++ [{ role := "user", content := "hello" }]) =
      "Assistant: " ++ BOOTSTRAP_ACK ++ "\n" ∧
    str_contains
      (system_message_of (bootstrap_messages ++ [{ role := "user", content := "hello" }]))
      ("Assistant: " ++ BOOTSTRAP_ACK) ∧
    ¬ str_contains
      (conversation_history (bootstrap_messages ++
        [{ role := "user", content := "q1" }, { role := "model", content := "a1" },
         { role := "user", content := "q2" },
         { role := "model", content := "the latest answer a2" },
         { role := "user", content := "q3" }]))
      "the latest answer a2" := by
  refine ⟨rfl, ⟨SYSTEM_PROMPT ++ "\n\nPrevious conversation:\n", "\n", rfl⟩, ?_⟩
  intro hc
  have ho := (occurs_iff "the latest answer a2" _ (by decide)).mpr hc
  exact absurd ho (by decide)

set_option maxRecDepth 20000 in
/-- C4 (amended): the conversation context sent with the generation
request is built from the history messages at indices one through
min(4, length - 2) - that is, up to four of the earliest messages after
the persona, not the last four exchanges.  The persona message itself
is always excluded (by index and by the content filter, which renders
it to nothing), but the bootstrap acknowledgment is included, rendered
as an Assistant line, whenever any later message exists. -/
theorem conversation_context_slice :
    (∀ messages : List Msg, messages.length > 2 →
      system_message_of messages =
        SYSTEM_PROMPT ++ "\n\nPrevious conversation:\n" ++
          str_concat (((messages.drop 1).take (min 4 (messages.length - 2))).map conv_step)) ∧
    (∀ rest : List Msg, rest ≠ [] →
      str_contains (conversation_history (bootstrap_messages ++ rest))
        ("Assistant: " ++ BOOTSTRAP_ACK ++ "\n")) ∧
    conv_step { role := "user", content := SYSTEM_PROMPT } = "" := by
  refine ⟨?_, ?_, rfl⟩
  · intro messages h
    unfold system_message_of
    rw [if_pos h, conversation_history_eq messages (by omega)]
    have hmin : min 5 (messages.length - 1) - 1 = min 4 (messages.length - 2) := by omega
    rw [hmin]
  · intro rest hr
    have hlen3 : 3 ≤ (bootstrap_messages ++ rest).length := by
      cases rest with
      | nil => exact absurd rfl hr
      | cons r rs =>
        have hlen : (bootstrap_messages ++ r :: rs).length = rs.length + 3 := by
          simp [bootstrap_messages]
        omega
    rw [conversation_history_eq _ (by omega)]
    have hdrop : (bootstrap_messages ++ rest).drop 1 =
        { role := "model", content := BOOTSTRAP_ACK } :: rest := by
      simp [bootstrap_messages]
    rw [hdrop]
    obtain ⟨k, hk⟩ : ∃ k, min 5 ((bootstrap_messages ++ rest).length - 1) - 1 = k + 1 :=
      ⟨min 5 ((bootstrap_messages ++ rest).length - 1) - 2, by omega⟩
    rw [hk, List.take_succ_cons, List.map_cons, str_concat]
    refine ⟨"", str_concat ((rest.take k).map conv_step), ?_⟩
    rw [String.empty_append]
    rfl

theorem conversation_context_slice_witness :
    system_message_of (bootstrap_messages ++ [({ role := "user", content := "hello" } : Msg)]) =
      SYSTEM_PROMPT ++ "\n\nPrevious conversation:\n" ++
        str_concat
          ((((bootstrap_messages ++ [({ role := "user", content := "hello" } : Msg)]).drop 1).take
            (min 4 ((bootstrap_messages ++
              [({ role := "user", content := "hello" } : Msg)]).length - 2))).map conv_step) :=
  conversation_context_slice.1 _ (by simp [bootstrap_messages])

theorem dlookup_dinsert {α : Type} (d : List (String × α)) (k q : String) (v : α) :
    dlookup (dinsert d k v) q = if k = q then some v else dlookup d q := by
  induction d with
  | nil => simp [dinsert, dlookup]
  | cons kv t ih =>
    obtain ⟨k1, v1⟩ := kv
    by_cases e : k1 = k
    · subst e
      simp only [dinsert, if_pos rfl]
      by_cases e2 : k1 = q
      · simp [dlookup, e2]
      · simp [dlookup, e2]
    · simp only [dinsert, if_neg e, dlookup]
      by_cases e2 : k1 = q
      · subst e2
        have hk : ¬ k = k1 := fun hh => e hh.symm
        simp [hk]
      · simp [e2, ih]

theorem build_fold_lookup (f : String → String) (kwargs : List (String × Json)) :
    ∀ (acc : List (String × Json)) (q : String),
      dlookup (kwargs.foldl (fun a kv => dinsert a (f kv.1) kv.2) acc) q =
        match last_match f kwargs q with
        | some v => some v
        | none => dlookup acc q := by
  induction kwargs with
  | nil => intro acc q; simp [last_match]
  | cons kv rest ih =>
    intro acc q
    rw [List.foldl_cons, ih]
    cases hlm : last_match f rest q with
    | some v => simp [last_match, hlm]
    | none =>
      simp only [last_match, hlm]
      rw [dlookup_dinsert]
      by_cases e : f kv.1 = q <;> simp [e]

theorem dlookup_build_mapped (pm : List (String × String))
    (kwargs : List (String × Json)) (q : String) :
    dlookup (build_mapped pm kwargs) q = last_match (map_param_name pm) kwargs q := by
  unfold build_mapped
  rw [build_fold_lookup]
  cases last_match (map_param_name pm) kwargs q <;> simp [dlookup]

theorem last_match_mem (f : String → String) :
    ∀ (l : List (String × Json)) (q : String) (v : Json),
      last_match f l q = some v → ∃ kv, kv ∈ l ∧ f kv.1 = q ∧ kv.2 = v := by
  intro l
  induction l with
  | nil => intro q v h; simp [last_match] at h
  | cons kv rest ih =>
    intro q v h
    simp only [last_match] at h
    cases hlm : last_match f rest q with
    | some w =>
      rw [hlm] at h
      injection h with h2
      obtain ⟨kv2, hm, hf, hv⟩ := ih q w hlm
      exact ⟨kv2, List.mem_cons_of_mem _ hm, hf, by rw [hv, h2]⟩
    | none =>
      rw [hlm] at h
      by_cases e : f kv.1 = q
      · rw [if_pos e] at h
        injection h with h2
        exact ⟨kv, List.mem_cons_self _ _, e, h2⟩
      · rw [if_neg e] at h
        exact absurd h (by simp)

theorem dlookup_isSome_of_mem {α : Type} :
    ∀ (l : List (String × α)) (kv : String × α), kv ∈ l → (dlookup l kv.1).isSome = true := by
  intro l
  induction l with
  | nil => intro kv h; simp at h
  | cons hd t ih =>
    intro kv h
    obtain ⟨k1, v1⟩ := hd
    simp only [dlookup]
    by_cases e : k1 = kv.1
    · simp [e]
    · rw [if_neg e]
      rcases List.mem_cons.mp h with h1 | h1
      · exfalso; apply e; rw [h1]
      · exact ih kv h1

theorem last_match_of_nodup (f : String → String) :
    ∀ (kwargs : List (String × Json)),
      (kwargs.map Prod.fst).Nodup →
      (∀ k1 k2, (dlookup kwargs k1).isSome = true → (dlookup kwargs k2).isSome = true →
        f k1 = f k2 → k1 = k2) →
      ∀ k v, dlookup kwargs k = some v → last_match f kwargs (f k) = some v := by
  intro kwargs
  induction kwargs with
  | nil => intro _ _ k v h; simp [dlookup] at h
  | cons kv rest ih =>
    intro hnd hinj k v h
    obtain ⟨k1, v1⟩ := kv
    simp only [dlookup] at h
    simp only [last_match]
    by_cases e : k1 = k
    · subst e
      rw [if_pos rfl] at h
      injection h with h2
      have hrest : last_match f rest (f k1) = none := by
        cases hlm : last_match f rest (f k1) with
        | none => rfl
        | some w =>
          exfalso
          obtain ⟨kv2, hm, hf, _⟩ := last_match_mem f rest (f k1) w hlm
          have hs2 : (dlookup ((k1, v1) :: rest) kv2.1).isSome = true := by
            simp only [dlookup]
            by_cases e2 : k1 = kv2.1
            · simp [e2]
            · rw [if_neg e2]
              exact dlookup_isSome_of_mem rest kv2 hm
          have hs1 : (dlookup ((k1, v1) :: rest) k1).isSome = true := by
            simp [dlookup]
          have heq := hinj kv2.1 k1 hs2 hs1 (by rw [hf])
          have hmem : kv2.1 ∈ rest.map Prod.fst := List.mem_map_of_mem Prod.fst hm
          rw [heq] at hmem
          have hnd1 := hnd
          rw [List.map_cons] at hnd1
          exact (List.nodup_cons.mp hnd1).1 hmem
      rw [hrest, if_pos rfl, h2]
    · rw [if_neg e] at h
      have hnd1 := hnd
      rw [List.map_cons] at hnd1
      have hnd2 : (rest.map Prod.fst).Nodup := (List.nodup_cons.mp hnd1).2
      have hinj2 : ∀ a b, (dlookup rest a).isSome = true → (dlookup rest b).isSome = true →
          f a = f b → a = b := by
        intro a b ha hb hf
        apply hinj a b ?_ ?_ hf
        · simp only [dlookup]
          by_cases e2 : k1 = a
          · simp [e2]
          · rw [if_neg e2]; exact ha
        · simp only [dlookup]
          by_cases e2 : k1 = b
          · simp [e2]
          · rw [if_neg e2]; exact hb
      rw [ih hnd2 hinj2 k v h]

theorem apply_defaults_cons (dk : String) (dval : Json) (rest mp : List (String × Json)) :
    apply_defaults ((dk, dval) :: rest) mp =
      apply_defaults rest (if (dlookup mp dk).isSome then mp else dinsert mp dk dval) := rfl

theorem apply_defaults_present (dv : List (String × Json)) :
    ∀ (mp : List (String × Json)) (q : String), (dlookup mp q).isSome = true →
      dlookup (apply_defaults dv mp) q = dlookup mp q := by
  induction dv with
  | nil => intro mp q h; simp [apply_defaults]
  | cons d rest ih =>
    intro mp q h
    obtain ⟨dk, dval⟩ := d
    rw [apply_defaults_cons]
    by_cases hd : (dlookup mp dk).isSome = true
    · rw [if_pos hd]
      exact ih mp q h
    · rw [if_neg hd]
      have hne : dk ≠ q := by
        intro he
        rw [he] at hd
        exact hd h
      have hq : dlookup (dinsert mp dk dval) q = dlookup mp q := by
        rw [dlookup_dinsert, if_neg hne]
      rw [ih (dinsert mp dk dval) q (by rw [hq]; exact h), hq]

theorem apply_defaults_absent (dv : List (String × Json)) :
    ∀ (mp : List (String × Json)) (q : String) (v : Json),
      dlookup mp q = none → dlookup dv q = some v →
      dlookup (apply_defaults dv mp) q = some v := by
  induction dv with
  | nil => intro mp q v h1 h2; simp [dlookup] at h2
  | cons d rest ih =>
    intro mp q v h1 h2
    obtain ⟨dk, dval⟩ := d
    rw [apply_defaults_cons]
    simp only [dlookup] at h2
    by_cases e : dk = q
    · rw [if_pos e] at h2
      injection h2 with h2
      have hd : (dlookup mp dk).isSome = true → False := by
        intro hs
        rw [e, h1] at hs
        simp at hs
      rw [if_neg hd]
      have hins : dlookup (dinsert mp dk dval) q = some dval := by
        rw [dlookup_dinsert, if_pos e]
      rw [apply_defaults_present rest (dinsert mp dk dval) q (by rw [hins]; rfl), hins, h2]
    · rw [if_neg e] at h2
      by_cases hd : (dlookup mp dk).isSome = true
      · rw [if_pos hd]
        exact ih mp q v h1 h2
      · rw [if_neg hd]
        have h1b : dlookup (dinsert mp dk dval) q = none := by
          rw [dlookup_dinsert, if_neg e]
          exact h1
        exact ih _ q v h1b h2

/-- C9: for every registered operation and caller mapping that passes
validation (required parameters present, distinct caller keys as in a
Python keyword-argument dict, and no two supplied keys renaming to the
same provider key - the colliding case is settled separately), resolve
renames each supplied parameter to its provider-facing key, with
unmapped keys passing through unchanged, and then applies default
values only to provider-facing keys not already present, never
overwriting an explicitly supplied value. -/
theorem resolve_rename_and_defaults (name : String) (info : ApiInfo)
    (kwargs : List (String × Json))
    (h : API_ENDPOINTS name = some info)
    (hreq : ∀ p ∈ info.required_params, (dlookup kwargs p).isSome = true)
    (hnd : (kwargs.map Prod.fst).Nodup)
    (hinj : ∀ k1 k2, (dlookup kwargs k1).isSome = true → (dlookup kwargs k2).isSome = true →
      map_param_name info.param_mapping k1 = map_param_name info.param_mapping k2 → k1 = k2) :
    ∃ fp, call_api_by_name name kwargs = ApiResult.request info.endpoint fp ∧
      (∀ k v, dlookup kwargs k = some v →
        dlookup fp (map_param_name info.param_mapping k) = some v) ∧
      (∀ k, dlookup info.param_mapping k = none → map_param_name info.param_mapping k = k) ∧
      (∀ d dv, dlookup info.default_values d = some dv →
        (∀ k, (dlookup kwargs k).isSome = true → map_param_name info.param_mapping k ≠ d) →
        dlookup fp d = some dv) := by
  refine ⟨apply_defaults info.default_values (build_mapped info.param_mapping kwargs),
    ?_, ?_, ?_, ?_⟩
  · have hfind : info.required_params.find? (fun p => (dlookup kwargs p).isNone) = none := by
      rw [List.find?_eq_none]
      intro p hp
      have hs := hreq p hp
      cases hq : dlookup kwargs p with
      | none => rw [hq] at hs; simp at hs
      | some w => simp [hq]
    simp [call_api_by_name, h, hfind]
  · intro k v hk
    have hb : dlookup (build_mapped info.param_mapping kwargs)
        (map_param_name info.param_mapping k) = some v := by
      rw [dlookup_build_mapped]
      exact last_match_of_nodup (map_param_name info.param_mapping) kwargs hnd hinj k v hk
    rw [apply_defaults_present info.default_values _ _ (by rw [hb]; rfl), hb]
  · intro k hk
    simp [map_param_name, hk]
  · intro d dv hd hno
    have hb : dlookup (build_mapped info.param_mapping kwargs) d = none := by
      rw [dlookup_build_mapped]
      cases hlm : last_match (map_param_name info.param_mapping) kwargs d with
      | none => rfl
      | some w =>
        exfalso
        obtain ⟨kv2, hm, hf, _⟩ := last_match_mem _ kwargs d w hlm
        exact hno kv2.1 (dlookup_isSome_of_mem kwargs kv2 hm) hf
    exact apply_defaults_absent info.default_values _ d dv hb hd

theorem resolve_rename_and_defaults_witness :
    ∃ fp, call_api_by_name "get_historical_data" [("stock_name", Json.str "TCS")] =
        ApiResult.request "/historical_data" fp ∧
      dlookup fp "stock_name" = some (Json.str "TCS") ∧
      dlookup fp "period" = some (Json.str "1m") := by
  have hkey : ∀ k : String,
      (dlookup [("stock_name", Json.str "TCS")] k).isSome = true → k = "stock_name" := by
    intro k hk
    by_cases e : "stock_name" = k
    · exact e.symm
    · simp only [dlookup, if_neg e] at hk
      simp [dlookup] at hk
  obtain ⟨fp, h1, h2, h3, h4⟩ :=
    resolve_rename_and_defaults "get_historical_data"
      { endpoint := "/historical_data", required_params := ["stock_name"],
        optional_params := ["period"],
        default_values := [("period", Json.str "1m"), ("filter", Json.str "default")],
        param_mapping := [],
        description := "Get historical data for a stock" }
      [("stock_name", Json.str "TCS")] rfl
      (by intro p hp; fin_cases hp; rfl)
      (by simp)
      (by
        intro k1 k2 ha hb _
        rw [hkey k1 ha, hkey k2 hb])
  refine ⟨fp, h1, ?_, ?_⟩
  · exact h2 "stock_name" (Json.str "TCS") rfl
  · refine h4 "period" (Json.str "1m") rfl ?_
    intro k hk hke
    rw [hkey k hk] at hke
    exact absurd hke (by decide)

theorem resolve_required_only_witness :
    call_api_by_name "get_historical_data" [("stock_name", Json.str "TCS")] =
      ApiResult.request "/historical_data"
        [("stock_name", Json.str "TCS"), ("period", Json.str "1m"),
         ("filter", Json.str "default")] :=
  (resolve_required_only (Json.str "TCS")).2.2.2.2.2.2.2.2
